import Mathlib

/-!
Verification development for the cook-jobclient-python repository.

The Python sources (src/cook/utils.py, src/cook/jobclient.py) are embedded
shallowly: pure request-construction and validation code becomes Lean
functions over explicit data; HTTP interactions are modelled by passing the
relevant response data (status codes, decoded bodies) as arguments; raising
an exception becomes returning an explicit error value.  Definitions come
first, then the theorems about them.
-/

namespace CookJobClient

/-! ## Data model

A Python job description is a dict mapping field names to loosely typed
values.  We model the values that the schema in jobclient.py distinguishes:
strings, ints, floats (as rationals), booleans, lists and dicts.
-/

inductive JValue where
  | str (s : String)
  | int (n : Int)
  | float (q : Rat)
  | bool (b : Bool)
  | list (vs : List JValue)
  | dict (kvs : List (String × JValue))

/-- A job description: a dict from field names to values, modelled as an
association list with first-match lookup. -/
abbrev Job := List (String × JValue)

/-- Dict lookup, j[k]: the first binding of key k, if any. -/
def findField : Job → String → Option JValue
  | [], _ => none
  | (k', v) :: rest, k => if k' = k then some v else findField rest k

/-! ## src/cook/utils.py : generate_batch_request

Python:
  batch = list()
  for i in range(0, len(jobs), batch_size):
      chunk = jobs[i:i + batch_size]
      batch.append(["job={}".format(uid) for uid in chunk])
  return batch

range(0, stop, step) with step > 0 yields the ceil(stop/step) indices
0, step, 2*step, ...; jobs[i:i+batch_size] is (jobs.drop i).take batch_size.
(With step = 0 Python range raises ValueError; Nat division by 0 yields 0
indices here, which is outside the modelled domain anyway.)
-/

/-- The index sequence of Python range(0, stop, step) for step > 0. -/
def pyRange (stop step : Nat) : List Nat :=
  List.range' 0 ((stop + step - 1) / step) step

/-- The raw identifier slices jobs[i:i+batch_size] taken by the loop. -/
def rawChunks (batch_size : Nat) (jobs : List String) : List (List String) :=
  (pyRange jobs.length batch_size).map (fun i => (jobs.drop i).take batch_size)

/-- utils.generate_batch_request: slice the identifier list and render each
entry as "job=uid". -/
def generate_batch_request (jobs : List String) (batch_size : Nat) : List (List String) :=
  (pyRange jobs.length batch_size).map
    (fun i => ((jobs.drop i).take batch_size).map (fun uid => "job=" ++ uid))

/-! ## src/cook/jobclient.py : the job schema (JobClient._job_schema)

The schema library checks, per job dict:
  Optional 'name': basestring with len > 0
  Optional 'uuid': basestring with len > 0 and UUID(s) parseable
  Optional 'executor': basestring in ('mesos', 'cook')
  Optional 'priority': Use(int) and 0 <= n <= 100
  Required 'max_retries': Use(int) and n > 0
  Optional 'max_runtime', 'expected_runtime': Use(long) and n > 0
  Optional 'cpus', 'mem': Or(int, float) and n > 0
  Optional 'gpus': Use(int) and n >= 0
  Optional 'ports': int and n >= 0
  Optional 'uris', 'constraints': list; 'env', 'container': dict
  Optional 'disable_mea_culpa_retries': bool; 'command': basestring
Keys outside the schema are rejected; the outer Schema wraps a list of such
dicts, accepted only if every job passes every constraint.

Use(int) applies Python int() to the value first: ints pass through, floats
are truncated toward zero, bools become 0/1, strings are parsed as decimal
integers, anything else raises (fails).  Note Python bool is a subclass of
int, so plain int type checks (cpus, mem, ports) also accept booleans.
-/

/-- Python str.replace(pat, "") on a character list: remove all
non-overlapping occurrences of pat, scanning left to right.  The Nat
argument is structural fuel, at least the list length (each step consumes at
least one character). -/
def removeAllAux (pat : List Char) : Nat → List Char → List Char
  | 0, s => s
  | _ + 1, [] => []
  | fuel + 1, c :: rest =>
    if pat.isPrefixOf (c :: rest) then removeAllAux pat fuel (rest.drop (pat.length - 1))
    else c :: removeAllAux pat fuel rest

def removeAll (pat : String) (s : List Char) : List Char :=
  removeAllAux pat.data s.length s

/-- Python str.strip brace characters from both ends, as in the uuid module's
hex.strip of the brace pair. -/
def stripBraces (s : List Char) : List Char :=
  ((s.dropWhile fun c => c = '\x7b' || c = '\x7d').reverse.dropWhile
    fun c => c = '\x7b' || c = '\x7d').reverse

def isHexDigit (c : Char) : Bool :=
  c.isDigit || ('a' ≤ c && c ≤ 'f') || ('A' ≤ c && c ≤ 'F')

/-- Modelled from the Python standard library: uuid.UUID(hex=s) removes every
occurrence of "urn:" and "uuid:", strips braces from both ends, removes
hyphens, and then requires exactly 32 hexadecimal digits (int(hex, 16)
whitespace and sign corner cases are not modelled). -/
def pyUUIDvalid (s : String) : Bool :=
  let h1 := removeAll "urn:" s.data
  let h2 := removeAll "uuid:" h1
  let h3 := removeAll "-" (stripBraces h2)
  h3.length == 32 && h3.all isHexDigit

/-- Python int(s) on a string: strip whitespace, allow one optional sign,
then decimal digits. -/
def pyStrToInt (s : String) : Option Int :=
  let t := s.data.dropWhile (fun c => c.isWhitespace)
  let t := (t.reverse.dropWhile (fun c => c.isWhitespace)).reverse
  match t with
  | [] => none
  | c :: rest =>
    let sign : Int := if c = '-' then -1 else 1
    let ds := if c = '-' || c = '+' then rest else c :: rest
    if !ds.isEmpty && ds.all (fun d => d.isDigit) then
      some (sign * (ds.foldl (fun acc d => acc * 10 + (d.toNat - '0'.toNat)) 0 : Nat))
    else none

/-- Python int() on a float truncates toward zero (T-division of the
numerator by the denominator). -/
def ratTrunc (q : Rat) : Int :=
  Int.tdiv q.num (Int.ofNat q.den)

/-- The schema combinator Use(int): convert with Python int(), failing on
values int() rejects.  Use(long) behaves identically for our purposes. -/
def useInt : JValue → Option Int
  | .int n => some n
  | .float q => some (ratTrunc q)
  | .bool b => some (if b then 1 else 0)
  | .str s => pyStrToInt s
  | _ => none

/-- The per-field constraint of JobClient._job_schema; unknown keys are
rejected by the schema library ("Wrong keys"). -/
def validField (k : String) (v : JValue) : Bool :=
  if k = "name" then
    match v with
    | .str s => decide (0 < s.length)
    | _ => false
  else if k = "uuid" then
    match v with
    | .str s => decide (0 < s.length) && pyUUIDvalid s
    | _ => false
  else if k = "executor" then
    match v with
    | .str s => s = "mesos" || s = "cook"
    | _ => false
  else if k = "priority" then
    match useInt v with
    | some n => decide (0 ≤ n) && decide (n ≤ 100)
    | none => false
  else if k = "max_retries" then
    match useInt v with
    | some n => decide (0 < n)
    | none => false
  else if k = "max_runtime" || k = "expected_runtime" then
    match useInt v with
    | some n => decide (0 < n)
    | none => false
  else if k = "cpus" || k = "mem" then
    match v with
    | .int n => decide (0 < n)
    | .float q => decide (0 < q)
    | .bool b => b
    | _ => false
  else if k = "gpus" then
    match useInt v with
    | some n => decide (0 ≤ n)
    | none => false
  else if k = "ports" then
    match v with
    | .int n => decide (0 ≤ n)
    | .bool _ => true
    | _ => false
  else if k = "uris" || k = "constraints" then
    match v with
    | .list _ => true
    | _ => false
  else if k = "env" || k = "container" then
    match v with
    | .dict _ => true
    | _ => false
  else if k = "disable_mea_culpa_retries" then
    match v with
    | .bool _ => true
    | _ => false
  else if k = "command" then
    match v with
    | .str _ => true
    | _ => false
  else false

/-- Validation of one job dict: the required max_retries key must be present
and every binding must satisfy its field constraint. -/
def validateJob (j : Job) : Bool :=
  (findField j "max_retries").isSome && j.all (fun p => validField p.1 p.2)

/-- JobClient._job_schema.validate on the whole batch: every job must pass
(all-or-nothing). -/
def validateJobs (jobs : List Job) : Bool :=
  jobs.all validateJob

/-! ## JobClient.submit

Python, with self._default_job_settings as defaults:
  data = {'jobs': jobs}
  for j in data['jobs']:
      if 'uuid' not in j:
          j['uuid'] = str(uuid1())
      j.update(dict(self._default_job_settings.items() + j.items()))
  self._job_schema.validate(jobs)
  try:
      self._api_post(self._scheduler_endpoint, data)
      return [j['uuid'] for j in data['jobs']]
  except HTTPError as e:
      raise JobClientError(e.message)

The dicts in data['jobs'] are the caller's own dicts, mutated in place; we
model the post-call state of that list explicitly (finalJobs).  uuid1() is
modelled by a caller-supplied generator gen indexed by how many UUIDs have
been generated so far in this call.  The POST is modelled by its HTTP status
code; requests raise_for_status raises HTTPError exactly for statuses in
[400, 600).
-/

/-- One iteration of the submit loop on job j: synthesize a uuid if the key
is absent, then merge in the default settings.  dict(defaults.items() +
j.items()) lets j's bindings win, and j.update with that dict adds exactly
the default bindings whose keys j lacks. -/
def mergeDefaults (defaults j : Job) : Job :=
  j ++ defaults.filter (fun p => (findField j p.1).isNone)

def processJob (defaults : Job) (u : String) (j : Job) : Job :=
  mergeDefaults defaults
    (if (findField j "uuid").isNone then j ++ [("uuid", JValue.str u)] else j)

/-- The whole submit loop; the Nat counts how many UUIDs uuid1() has produced
so far, so each missing-uuid job receives the next generated value. -/
def submitPrepare (defaults : Job) (gen : Nat → String) : List Job → Nat → List Job
  | [], _ => []
  | j :: rest, c =>
    if (findField j "uuid").isNone then
      processJob defaults (gen c) j :: submitPrepare defaults gen rest (c + 1)
    else
      processJob defaults (gen c) j :: submitPrepare defaults gen rest c

inductive SubmitError where
  | assertionError
  | schemaError
  | jobClientError (status : Nat)

structure SubmitResult where
  posted : Bool
  finalJobs : List Job
  result : Except SubmitError (List JValue)

/-- requests' Response.raise_for_status raises HTTPError exactly for
4xx and 5xx status codes. -/
def raiseForStatus (status : Nat) : Bool :=
  400 ≤ status && status < 600

def submit (defaults : Job) (gen : Nat → String) (jobs : List Job) (status : Nat) :
    SubmitResult :=
  if jobs.isEmpty then
    { posted := false, finalJobs := jobs, result := .error .assertionError }
  else
    let processed := submitPrepare defaults gen jobs 0
    if validateJobs processed then
      if raiseForStatus status then
        { posted := true, finalJobs := processed, result := .error (.jobClientError status) }
      else
        { posted := true, finalJobs := processed,
          result := .ok (processed.map (fun j => (findField j "uuid").getD (JValue.str ""))) }
    else
      { posted := false, finalJobs := processed, result := .error .schemaError }

/-! ## JobClient.query

Python:
  if len(jobs) > 1:
      for r in self._batch_request(jobs):
          req.append(''.join([self._scheduler_endpoint, '?', '&'.join(r)]))
  else:
      req = "{}?job={}".format(self._scheduler_endpoint, jobs[0])
  ret = list()
  for resp in self._api_get(req):
      ret.extend(resp.json())
  return ret

_api_get issues one GET per request string, in order; the decoded bodies are
modelled by a function from the request string to the decoded JSON list.
-/

def scheduler_endpoint : String := "/rawscheduler"

def queryRequests (batchSize : Nat) (jobs : List String) : List String :=
  match jobs with
  | [] => []
  | [j] => [scheduler_endpoint ++ "?job=" ++ j]
  | _ => (generate_batch_request jobs batchSize).map
      (fun r => scheduler_endpoint ++ "?" ++ String.intercalate "&" r)

/-- query, returning the issued request strings together with the flattened
decoded bodies (ret.extend concatenates them in request order). -/
def query (batchSize : Nat) (jobs : List String) (respond : String → List String) :
    List String × List String :=
  let reqs := queryRequests batchSize jobs
  (reqs, (reqs.map respond).flatten)

/-! ## JobClient.list

Python:
  r = list(["user={}".format(user)])
  if state:
      r.append("state={}".format('%2B'.join(state) if isinstance(state, list) else state))
  if start_time: r.append("start_ms={}".format(...))
  if stop_time: r.append("stop_ms={}".format(...))
  if limit: r.append("limit={}".format(limit))
  self._api_get(''.join([self._list_endpoint, '?', '&'.join(r)]))[0]

The state argument is modelled in its list form; an empty list is falsy in
Python and omitted, as is limit equal to 0.  The datetime-to-epoch-
milliseconds rendering is abstracted as the already-formatted string.
-/

def list_endpoint : String := "/list"

def listParams (user : String) (state : List String) (startMs stopMs : Option String)
    (limit : Option Nat) : List String :=
  let r := ["user=" ++ user]
  let r := if state.isEmpty then r else r ++ ["state=" ++ String.intercalate "%2B" state]
  let r := match startMs with
    | none => r
    | some s => r ++ ["start_ms=" ++ s]
  let r := match stopMs with
    | none => r
    | some s => r ++ ["stop_ms=" ++ s]
  match limit with
  | none => r
  | some n => if n = 0 then r else r ++ ["limit=" ++ toString n]

def listRequest (user : String) (state : List String) (startMs stopMs : Option String)
    (limit : Option Nat) : String :=
  list_endpoint ++ "?" ++ String.intercalate "&" (listParams user state startMs stopMs limit)

/-! ## JobClient.wait

Python:
  while True:
      try:
          for job in self.query(jobs=jobs):
              if job['status'] == 'completed':
                  jobs.remove(job['uuid'])
                  yield (job)
      except JobClientError as e:
          logger.error(e.message)
      if len(jobs) > 0:
          time.sleep(self._status_update_interval_secs)
      else:
          break

Each pass consumes one poll outcome: either the decoded query result or a
JobClientError (which is logged and swallowed).  The run function executes
the loop against a finite script of poll outcomes, returning the yielded
jobs, the final remaining list, the number of sleeps and the number of polls
performed; none means the script ended while the loop still wanted to poll
again.
-/

structure JobInfo where
  uuid : String
  status : String
deriving DecidableEq, Repr

inductive PollStep where
  | ok (res : List JobInfo)
  | err

/-- One pass over a decoded query result: completed jobs are removed from the
remaining list (list.remove drops the first occurrence) and yielded, in
result order; other jobs are untouched. -/
def waitPass (remaining : List String) : List JobInfo → List String × List JobInfo
  | [] => (remaining, [])
  | job :: rest =>
    if job.status = "completed" then
      ((waitPass (remaining.erase job.uuid) rest).1,
        job :: (waitPass (remaining.erase job.uuid) rest).2)
    else waitPass remaining rest

/-- The effect of one poll: a query error is logged and leaves the remaining
list unchanged with nothing yielded. -/
def pollOutcome (remaining : List String) : PollStep → List String × List JobInfo
  | .ok res => waitPass remaining res
  | .err => (remaining, [])

def waitRun : List String → List PollStep → Nat → Nat → List JobInfo →
    Option (List JobInfo × List String × Nat × Nat)
  | _, [], _, _, _ => none
  | remaining, step :: rest, sleeps, polls, acc =>
    let pr := pollOutcome remaining step
    if pr.1.length > 0 then
      waitRun pr.1 rest (sleeps + 1) (polls + 1) (acc ++ pr.2)
    else some (acc ++ pr.2, pr.1, sleeps, polls + 1)

/-- The rational 100.5, written as an explicit numerator/denominator pair so
that proofs can evaluate it without rational normalization. -/
def oneHundredPointFive : Rat := ⟨201, 2, by decide, by decide⟩

/-- A well-formed version-1 UUID string, as produced by uuid1(), for use in
concrete instances. -/
def validUuid : String := "15dd97d6-a628-11e7-b27b-3cfdfea21a98"

/-- A concrete responder for the query scenario of C5: five identifiers with
chunk size 4 produce two requests, answered with their identifiers. -/
def respondFive : String → List String :=
  fun s =>
    if s = "/rawscheduler?job=a&job=b&job=c&job=d" then ["a", "b", "c", "d"]
    else if s = "/rawscheduler?job=e" then ["e"]
    else []

/-! ## Theorems -/

theorem generate_batch_request_eq (jobs : List String) (batch_size : Nat) :
    generate_batch_request jobs batch_size =
      (rawChunks batch_size jobs).map (fun c => c.map (fun uid => "job=" ++ uid)) := by
  simp [generate_batch_request, rawChunks, List.map_map, Function.comp]

theorem ceilDiv_step (N L : Nat) (hN : 0 < N) (hL : 0 < L) :
    (L + N - 1) / N = (L - N + N - 1) / N + 1 := by
  rcases Nat.le_total L N with h | h
  · have h1 : (L + N - 1) / N = 1 := by
      apply Nat.div_eq_of_lt_le <;> omega
    have h0 : L - N = 0 := by omega
    have h2 : (N - 1) / N = 0 := Nat.div_eq_of_lt (by omega)
    rw [h1, h0]
    simpa using h2
  · have key : L + N - 1 = (L - N + N - 1) + N := by omega
    rw [key, Nat.add_div_right _ hN]

theorem ceilDiv_eq_zero (N L : Nat) (hN : 0 < N) (h : (L + N - 1) / N = 0) : L = 0 := by
  by_contra hL
  have hL' : 0 < L := Nat.pos_of_ne_zero hL
  have : N ≤ L + N - 1 := by omega
  have := Nat.div_le_div_right (c := N) this
  rw [Nat.div_self hN] at this
  omega

theorem rawChunks_flatten_aux (N : Nat) (hN : 0 < N) :
    ∀ (k : Nat) (jobs : List String), (jobs.length + N - 1) / N = k →
      (rawChunks N jobs).flatten = jobs := by
  intro k
  induction k with
  | zero =>
    intro jobs hk
    have : jobs.length = 0 := ceilDiv_eq_zero N jobs.length hN hk
    have hnil : jobs = [] := List.length_eq_zero.mp this
    subst hnil
    simp [rawChunks, pyRange, hk]
  | succ k ih =>
    intro jobs hk
    have hL : 0 < jobs.length := by
      by_contra h
      have h0 : jobs.length = 0 := by omega
      rw [h0] at hk
      have : (0 + N - 1) / N = 0 := Nat.div_eq_of_lt (by omega)
      omega
    have hstep : (jobs.length + N - 1) / N = (jobs.length - N + N - 1) / N + 1 :=
      ceilDiv_step N jobs.length hN hL
    have hk' : ((jobs.drop N).length + N - 1) / N = k := by
      rw [List.length_drop]
      omega
    have hshift : List.range' N k N = (List.range' 0 k N).map (fun i => N + i) := by
      have h := List.map_add_range' N 0 k N
      rw [Nat.add_zero] at h
      exact h.symm
    have hcount : (jobs.length + N - 1) / N = k + 1 := hk
    calc (rawChunks N jobs).flatten
        = ((List.range' 0 (k + 1) N).map (fun i => (jobs.drop i).take N)).flatten := by
          rw [rawChunks, pyRange, hcount]
      _ = (jobs.take N) ++ ((List.range' N k N).map (fun i => (jobs.drop i).take N)).flatten := by
          rw [List.range'_succ]
          simp only [List.map_cons, List.flatten_cons, List.drop_zero, Nat.zero_add]
      _ = (jobs.take N) ++ ((List.range' 0 k N).map (fun i => ((jobs.drop N).drop i).take N)).flatten := by
          rw [hshift, List.map_map]
          have hmaps : (List.range' 0 k N).map ((fun i => (jobs.drop i).take N) ∘ fun i => N + i)
              = (List.range' 0 k N).map (fun i => ((jobs.drop N).drop i).take N) :=
            List.map_congr_left (fun i _ => by
              simp only [Function.comp_apply]
              rw [List.drop_drop])
          rw [hmaps]
      _ = (jobs.take N) ++ (rawChunks N (jobs.drop N)).flatten := by
          rw [rawChunks, pyRange, hk']
      _ = (jobs.take N) ++ (jobs.drop N) := by rw [ih _ hk']
      _ = jobs := List.take_append_drop N jobs

theorem rawChunks_flatten (N : Nat) (hN : 0 < N) (jobs : List String) :
    (rawChunks N jobs).flatten = jobs :=
  rawChunks_flatten_aux N hN _ jobs rfl

theorem flatten_map_map (L : List (List String)) (f : String → String) :
    (L.map (fun c => c.map f)).flatten = L.flatten.map f := by
  induction L with
  | nil => simp
  | cons c rest ih => simp only [List.map_cons, List.flatten_cons, List.map_append, ih]

theorem generate_batch_request_flatten (N : Nat) (hN : 0 < N) (jobs : List String) :
    (generate_batch_request jobs N).flatten = jobs.map (fun uid => "job=" ++ uid) := by
  rw [generate_batch_request_eq, flatten_map_map, rawChunks_flatten N hN]

/-- Claim C1: for every identifier list of length L and chunk size N > 0,
generate_batch_request produces ceil(L/N) chunks, each containing at most N
entries, each entry rendered as "job=id", preserving the original order (the
concatenation of all chunks equals the rendered input list); an empty input
yields an empty chunk sequence. -/
theorem generate_batch_request_spec (jobs : List String) (N : Nat) (hN : 0 < N) :
    (generate_batch_request jobs N).length = (jobs.length + N - 1) / N ∧
    (∀ c ∈ generate_batch_request jobs N, c.length ≤ N) ∧
    (generate_batch_request jobs N).flatten = jobs.map (fun uid => "job=" ++ uid) ∧
    (jobs = [] → generate_batch_request jobs N = []) := by
  refine ⟨?_, ?_, generate_batch_request_flatten N hN jobs, ?_⟩
  · simp [generate_batch_request, pyRange]
  · intro c hc
    simp only [generate_batch_request, List.mem_map] at hc
    obtain ⟨i, _, rfl⟩ := hc
    simp only [List.length_map, List.length_take]
    omega
  · intro h
    subst h
    have hz : (N - 1) / N = 0 := Nat.div_eq_of_lt (by omega)
    simp [generate_batch_request, pyRange, hz]

theorem generate_batch_request_spec_witness :
    (0 < 2) ∧
    ((generate_batch_request ["a", "b", "c"] 2).length = (3 + 2 - 1) / 2 ∧
     (∀ c ∈ generate_batch_request ["a", "b", "c"] 2, c.length ≤ 2) ∧
     (generate_batch_request ["a", "b", "c"] 2).flatten =
       (["a", "b", "c"] : List String).map (fun uid => "job=" ++ uid) ∧
     ((["a", "b", "c"] : List String) = [] → generate_batch_request ["a", "b", "c"] 2 = [])) := by
  constructor
  · decide
  · have h := generate_batch_request_spec ["a", "b", "c"] 2 (by decide)
    simpa using h

/-! ### Lookup lemmas for the default merger -/

theorem findField_append (a b : Job) (k : String) :
    findField (a ++ b) k =
      match findField a k with
      | some v => some v
      | none => findField b k := by
  induction a with
  | nil => simp [findField]
  | cons p rest ih =>
    obtain ⟨k', v⟩ := p
    by_cases h : k' = k
    · simp [findField, h]
    · simp [findField, h, ih]

theorem findField_filter_of_key (l : Job) (p : String × JValue → Bool) (k : String)
    (hp : ∀ v, p (k, v) = true) :
    findField (l.filter p) k = findField l k := by
  induction l with
  | nil => simp
  | cons q rest ih =>
    obtain ⟨k', v⟩ := q
    by_cases h : k' = k
    · subst h
      rw [List.filter_cons, hp v]
      simp [findField, ih]
    · cases hpv : p (k', v) with
      | true => simp [List.filter_cons, hpv, findField, h, ih]
      | false => simp [List.filter_cons, hpv, findField, h, ih]

theorem findField_mergeDefaults (defaults j : Job) (k : String) :
    findField (mergeDefaults defaults j) k =
      match findField j k with
      | some v => some v
      | none => findField defaults k := by
  unfold mergeDefaults
  rw [findField_append]
  cases h : findField j k with
  | some v => rfl
  | none =>
    exact findField_filter_of_key defaults _ k (fun v => by simp [h])

theorem findField_processJob (defaults j : Job) (u k : String) :
    findField (processJob defaults u j) k =
      if k = "uuid" then
        match findField j "uuid" with
        | some v => some v
        | none => some (JValue.str u)
      else
        match findField j k with
        | some v => some v
        | none => findField defaults k := by
  unfold processJob
  rw [findField_mergeDefaults]
  by_cases hk : k = "uuid"
  · subst hk
    cases h : findField j "uuid" with
    | some v => simp [h]
    | none => simp [h, findField_append, findField]
  · cases hu : findField j "uuid" with
    | some v =>
      simp only [hu, Option.isNone_some, Bool.false_eq_true, if_neg, ite_false]
      simp [hk]
    | none =>
      simp only [hu, Option.isNone_none, if_pos, ite_true]
      rw [findField_append]
      have hk' : ¬("uuid" = k) := fun e => hk e.symm
      cases h : findField j k <;> simp [h, hk, hk', findField]

theorem processJob_uuid_isSome (defaults j : Job) (u : String) :
    (findField (processJob defaults u j) "uuid").isSome := by
  rw [findField_processJob]
  simp only [if_pos rfl]
  cases findField j "uuid" <;> simp

/-- Claim C3: for every job in a submitted batch, a default setting is added
only when the job itself lacks the field, and whenever a job defines a field
also present in the defaults the job-supplied value survives the merge; the
prepared batch consists exactly of such per-job merges, in order. -/
theorem submit_default_merge (defaults j : Job) (u k : String) (vd : JValue)
    (hd : findField defaults k = some vd) :
    (∀ w, findField j k = some w → findField (processJob defaults u j) k = some w) ∧
    (findField j k = none → k ≠ "uuid" → findField (processJob defaults u j) k = some vd) ∧
    (∀ (gen : Nat → String) (jobs : List Job) (c : Nat),
      List.Forall₂ (fun jb p => ∃ w, p = processJob defaults w jb)
        jobs (submitPrepare defaults gen jobs c)) := by
  refine ⟨?_, ?_, ?_⟩
  · intro w hw
    rw [findField_processJob]
    by_cases hk : k = "uuid"
    · subst hk
      simp [hw]
    · simp [hk, hw]
  · intro h hk
    rw [findField_processJob]
    simp [hk, h, hd]
  · intro gen jobs
    induction jobs with
    | nil => intro c; exact List.Forall₂.nil
    | cons j' rest ih =>
      intro c
      by_cases h : (findField j' "uuid").isNone
      · rw [submitPrepare, if_pos h]
        exact List.Forall₂.cons ⟨gen c, rfl⟩ (ih (c + 1))
      · rw [submitPrepare, if_neg h]
        exact List.Forall₂.cons ⟨gen c, rfl⟩ (ih c)

theorem submit_default_merge_witness :
    findField (processJob [("max_retries", JValue.int 1)] "u" [("max_retries", JValue.int 5)])
      "max_retries" = some (JValue.int 5) :=
  (submit_default_merge [("max_retries", JValue.int 1)] [("max_retries", JValue.int 5)] "u"
      "max_retries" (JValue.int 1) rfl).1 (JValue.int 5) rfl

/-! ### The priority constraint (claim C8) -/

/-- Claim C8 counterexample: the float value 100.5 lies outside the interval
[0, 100], yet schema validation accepts it for the priority field, because
Use(int) applies Python int() first, truncating 100.5 to 100 before the
range check. -/
theorem priority_accepts_out_of_range_float :
    validField "priority" (JValue.float oneHundredPointFive) = true ∧
    (100 : Rat) < oneHundredPointFive :=
  ⟨rfl, by decide⟩

/-- Claim C8 amended: the priority constraint accepts exactly the values
whose int() conversion succeeds and lands in [0, 100]; over the integers it
accepts precisely 0 through 100, boundaries included, and rejects every
integer outside, but a non-integer numeric such as 100.5 is truncated toward
zero before the range check rather than rejected. -/
theorem priority_spec :
    (∀ n : Int, validField "priority" (JValue.int n) = true ↔ 0 ≤ n ∧ n ≤ 100) ∧
    validField "priority" (JValue.int 0) = true ∧
    validField "priority" (JValue.int 100) = true ∧
    (∀ v : JValue, validField "priority" v = true ↔
      ∃ n : Int, useInt v = some n ∧ 0 ≤ n ∧ n ≤ 100) := by
  have hgen : ∀ v : JValue, validField "priority" v = true ↔
      ∃ n : Int, useInt v = some n ∧ 0 ≤ n ∧ n ≤ 100 := by
    intro v
    cases huse : useInt v with
    | some n =>
      simp [validField, huse]
    | none =>
      simp [validField, huse]
  refine ⟨?_, by decide, by decide, hgen⟩
  intro n
  rw [hgen (JValue.int n)]
  constructor
  · rintro ⟨m, hm, h0, h1⟩
    cases (Option.some_inj.mp hm)
    exact ⟨h0, h1⟩
  · rintro ⟨h0, h1⟩
    exact ⟨n, rfl, h0, h1⟩

theorem priority_spec_witness :
    validField "priority" (JValue.int 50) = true :=
  (priority_spec.1 50).mpr (by decide)

/-! ### submit: ordering, status handling, mutation (claims C4, C2, C10) -/

theorem submitPrepare_length (defaults : Job) (gen : Nat → String) :
    ∀ (jobs : List Job) (c : Nat), (submitPrepare defaults gen jobs c).length = jobs.length := by
  intro jobs
  induction jobs with
  | nil => intro c; rfl
  | cons j rest ih =>
    intro c
    by_cases h : (findField j "uuid").isNone
    · rw [submitPrepare, if_pos h]
      simp [ih]
    · rw [submitPrepare, if_neg h]
      simp [ih]

theorem submitPrepare_uuid_isSome (defaults : Job) (gen : Nat → String) :
    ∀ (jobs : List Job) (c : Nat) (p : Job), p ∈ submitPrepare defaults gen jobs c →
      (findField p "uuid").isSome := by
  intro jobs
  induction jobs with
  | nil =>
    intro c p hp
    simp [submitPrepare] at hp
  | cons j rest ih =>
    intro c p hp
    by_cases h : (findField j "uuid").isNone
    · rw [submitPrepare, if_pos h] at hp
      rcases List.mem_cons.mp hp with rfl | hp'
      · exact processJob_uuid_isSome defaults j (gen c)
      · exact ih (c + 1) p hp'
    · rw [submitPrepare, if_neg h] at hp
      rcases List.mem_cons.mp hp with rfl | hp'
      · exact processJob_uuid_isSome defaults j (gen c)
      · exact ih c p hp'

theorem processJob_keeps_uuid (defaults j : Job) (u : String) (w : JValue)
    (hw : findField j "uuid" = some w) :
    findField (processJob defaults u j) "uuid" = some w := by
  rw [findField_processJob]
  simp [hw]

theorem processJob_fills_uuid (defaults j : Job) (u : String)
    (h : findField j "uuid" = none) :
    findField (processJob defaults u j) "uuid" = some (JValue.str u) := by
  rw [findField_processJob]
  simp [h]

theorem processJob_fills_default (defaults j : Job) (u k : String) (vd : JValue)
    (hd : findField defaults k = some vd) (h : findField j k = none) (hk : k ≠ "uuid") :
    findField (processJob defaults u j) k = some vd := by
  rw [findField_processJob]
  simp [hk, h, hd]

theorem submitPrepare_forall2 (defaults : Job) (gen : Nat → String) :
    ∀ (jobs : List Job) (c : Nat),
      List.Forall₂ (fun jb p =>
        (∀ w, findField jb "uuid" = some w → findField p "uuid" = some w) ∧
        (findField jb "uuid" = none → ∃ c', findField p "uuid" = some (JValue.str (gen c'))) ∧
        (∀ k vd, findField defaults k = some vd → findField jb k = none → k ≠ "uuid" →
          findField p k = some vd))
      jobs (submitPrepare defaults gen jobs c) := by
  intro jobs
  induction jobs with
  | nil => intro c; exact List.Forall₂.nil
  | cons j rest ih =>
    intro c
    by_cases h : (findField j "uuid").isNone
    · rw [submitPrepare, if_pos h]
      refine List.Forall₂.cons ⟨?_, ?_, ?_⟩ (ih (c + 1))
      · intro w hw
        exact processJob_keeps_uuid defaults j (gen c) w hw
      · intro hnone
        exact ⟨c, processJob_fills_uuid defaults j (gen c) hnone⟩
      · intro k vd hd hnone hk
        exact processJob_fills_default defaults j (gen c) k vd hd hnone hk
    · rw [submitPrepare, if_neg h]
      refine List.Forall₂.cons ⟨?_, ?_, ?_⟩ (ih c)
      · intro w hw
        exact processJob_keeps_uuid defaults j (gen c) w hw
      · intro hnone
        rw [hnone] at h
        simp at h
      · intro k vd hd hnone hk
        exact processJob_fills_default defaults j (gen c) k vd hd hnone hk

/-- Claim C4: in submit, UUID synthesis and default-merging happen strictly
before schema validation (validation is applied to the prepared batch), and
a validation failure makes submit fail with the schema error before any POST
is issued: posted is true only when the prepared batch validated. -/
theorem submit_validation_order (defaults : Job) (gen : Nat → String) (jobs : List Job)
    (status : Nat) (hne : jobs ≠ []) :
    (validateJobs (submitPrepare defaults gen jobs 0) = false →
      submit defaults gen jobs status =
        { posted := false, finalJobs := submitPrepare defaults gen jobs 0,
          result := .error .schemaError }) ∧
    ((submit defaults gen jobs status).posted = true →
      validateJobs (submitPrepare defaults gen jobs 0) = true) := by
  have hem : jobs.isEmpty = false := by
    cases jobs with
    | nil => exact absurd rfl hne
    | cons a l => rfl
  constructor
  · intro hval
    rw [submit]
    simp [hem, hval]
  · intro hposted
    cases hval : validateJobs (submitPrepare defaults gen jobs 0) with
    | true => rfl
    | false =>
      rw [submit] at hposted
      simp [hem, hval] at hposted

theorem submit_validation_order_witness :
    validateJobs (submitPrepare [("max_retries", JValue.int 1)]
      (fun _ => "not-a-uuid") [[]] 0) = false ∧
    submit [("max_retries", JValue.int 1)] (fun _ => "not-a-uuid") [[]] 201 =
      { posted := false,
        finalJobs := submitPrepare [("max_retries", JValue.int 1)]
          (fun _ => "not-a-uuid") [[]] 0,
        result := .error .schemaError } :=
  ⟨rfl, (submit_validation_order [("max_retries", JValue.int 1)] (fun _ => "not-a-uuid")
    [[]] 201 (by simp)).1 rfl⟩

/-- Claim C2 counterexample: an HTTP status of 200 differs from 201, yet
submit returns the UUID list instead of raising JobClientError, because
raise_for_status only raises for statuses in [400, 600). -/
theorem submit_non201_returns :
    (200 ≠ 201) ∧
    (submit [("max_retries", JValue.int 1)] (fun _ => "x")
        [[("uuid", JValue.str validUuid)]] 200).result = .ok [JValue.str validUuid] :=
  ⟨by decide, rfl⟩

/-- Claim C2 amended: for a non-empty batch of K jobs whose prepared forms
pass validation, submit returns exactly the K prepared uuid values in input
order whenever raise_for_status does not fire — in particular for HTTP 201 —
and raises JobClientError exactly for the statuses in [400, 600). -/
theorem submit_status_spec (defaults : Job) (gen : Nat → String) (jobs : List Job)
    (status : Nat) (hne : jobs ≠ [])
    (hval : validateJobs (submitPrepare defaults gen jobs 0) = true) :
    (raiseForStatus status = true →
      (submit defaults gen jobs status).result = .error (.jobClientError status)) ∧
    (raiseForStatus status = false →
      (submit defaults gen jobs status).result =
        .ok ((submitPrepare defaults gen jobs 0).map
          (fun j => (findField j "uuid").getD (JValue.str ""))) ∧
      ((submitPrepare defaults gen jobs 0).map
          (fun j => (findField j "uuid").getD (JValue.str ""))).length = jobs.length) ∧
    raiseForStatus 201 = false ∧
    (raiseForStatus status = true ↔ 400 ≤ status ∧ status < 600) := by
  have hem : jobs.isEmpty = false := by
    cases jobs with
    | nil => exact absurd rfl hne
    | cons a l => rfl
  refine ⟨?_, ?_, rfl, ?_⟩
  · intro hs
    rw [submit]
    simp [hem, hval, hs]
  · intro hs
    rw [submit]
    simp [hem, hval, hs, submitPrepare_length]
  · simp [raiseForStatus]

theorem submit_status_spec_witness :
    (submit [("max_retries", JValue.int 1)] (fun _ => validUuid)
        [[("command", JValue.str "echo")]] 201).result =
      .ok ((submitPrepare [("max_retries", JValue.int 1)] (fun _ => validUuid)
        [[("command", JValue.str "echo")]] 0).map
          (fun j => (findField j "uuid").getD (JValue.str ""))) :=
  ((submit_status_spec [("max_retries", JValue.int 1)] (fun _ => validUuid)
      [[("command", JValue.str "echo")]] 201 (by simp) rfl).2.1 rfl).1

/-- Claim C10: submit updates the caller's job dicts in place; the
caller-visible post-state of the passed list (finalJobs) is the prepared
batch, so after a successful submit every job map carries a uuid key (the
caller's value, or the synthesized one when it was absent) plus every
previously-absent default binding, and the returned list is exactly the
uuid values drawn from these mutated maps, in order. -/
theorem submit_mutation_spec (defaults : Job) (gen : Nat → String) (jobs : List Job)
    (status : Nat) (us : List JValue)
    (hok : (submit defaults gen jobs status).result = .ok us) :
    (submit defaults gen jobs status).finalJobs = submitPrepare defaults gen jobs 0 ∧
    (submit defaults gen jobs status).finalJobs.length = jobs.length ∧
    (∀ p ∈ (submit defaults gen jobs status).finalJobs, (findField p "uuid").isSome) ∧
    us = (submit defaults gen jobs status).finalJobs.map
      (fun j => (findField j "uuid").getD (JValue.str "")) ∧
    List.Forall₂ (fun jb p =>
        (∀ w, findField jb "uuid" = some w → findField p "uuid" = some w) ∧
        (findField jb "uuid" = none → ∃ c, findField p "uuid" = some (JValue.str (gen c))) ∧
        (∀ k vd, findField defaults k = some vd → findField jb k = none → k ≠ "uuid" →
          findField p k = some vd))
      jobs (submit defaults gen jobs status).finalJobs := by
  by_cases hem : jobs.isEmpty
  · rw [submit] at hok
    simp [hem] at hok
  · have hfj : (submit defaults gen jobs status).finalJobs
        = submitPrepare defaults gen jobs 0 := by
      rw [submit]
      simp only [hem, Bool.false_eq_true, if_neg, ite_false]
      cases hval : validateJobs (submitPrepare defaults gen jobs 0) <;>
        cases hs : raiseForStatus status <;> simp
    have hus : us = (submitPrepare defaults gen jobs 0).map
        (fun j => (findField j "uuid").getD (JValue.str "")) := by
      rw [submit] at hok
      simp only [hem, Bool.false_eq_true, if_neg, ite_false] at hok
      cases hval : validateJobs (submitPrepare defaults gen jobs 0) with
      | false => simp [hval] at hok
      | true =>
        cases hs : raiseForStatus status with
        | true => simp [hval, hs] at hok
        | false =>
          simp only [hval, hs, Bool.false_eq_true, if_neg, ite_true, ite_false] at hok
          exact (Except.ok.inj hok).symm
    refine ⟨hfj, ?_, ?_, ?_, ?_⟩
    · rw [hfj, submitPrepare_length]
    · intro p hp
      rw [hfj] at hp
      exact submitPrepare_uuid_isSome defaults gen jobs 0 p hp
    · rw [hfj, hus]
    · rw [hfj]
      exact submitPrepare_forall2 defaults gen jobs 0

theorem submit_mutation_spec_witness :
    [JValue.str validUuid] =
      (submit [("max_retries", JValue.int 1)] (fun _ => validUuid)
        [[("command", JValue.str "echo")]] 201).finalJobs.map
        (fun j => (findField j "uuid").getD (JValue.str "")) :=
  (submit_mutation_spec [("max_retries", JValue.int 1)] (fun _ => validUuid)
      [[("command", JValue.str "echo")]] 201
      [JValue.str validUuid] rfl).2.2.2.1

/-! ### query batching (claim C5) -/

/-- Claim C5: with more than one identifier, query renders one GET request
per chunk of the partitioned list — ceil(L/N) requests in chunk order — and
concatenates the decoded bodies in that order; when each chunk request is
answered by the information for exactly its identifiers, the flattened
result is the original list in order.  A single-element list takes the
direct single-identifier path. -/
theorem query_batching_spec (N : Nat) (jobs : List String) (respond : String → List String)
    (hN : 0 < N) (h2 : 1 < jobs.length)
    (hresp : ∀ c ∈ rawChunks N jobs,
      respond (scheduler_endpoint ++ "?" ++
        String.intercalate "&" (c.map (fun uid => "job=" ++ uid))) = c) :
    queryRequests N jobs =
      (generate_batch_request jobs N).map
        (fun r => scheduler_endpoint ++ "?" ++ String.intercalate "&" r) ∧
    (queryRequests N jobs).length = (jobs.length + N - 1) / N ∧
    (query N jobs respond).2 = jobs ∧
    (∀ j : String, queryRequests N [j] = [scheduler_endpoint ++ "?job=" ++ j]) := by
  have hreq : queryRequests N jobs =
      (generate_batch_request jobs N).map
        (fun r => scheduler_endpoint ++ "?" ++ String.intercalate "&" r) := by
    match jobs, h2 with
    | a :: b :: rest, _ => rfl
  refine ⟨hreq, ?_, ?_, fun j => rfl⟩
  · rw [hreq]
    simp [generate_batch_request, pyRange]
  · show ((queryRequests N jobs).map respond).flatten = jobs
    rw [hreq, generate_batch_request_eq, List.map_map, List.map_map]
    have hcongr : (rawChunks N jobs).map
        ((respond ∘ fun r => scheduler_endpoint ++ "?" ++ String.intercalate "&" r) ∘
          fun c => c.map (fun uid => "job=" ++ uid))
        = (rawChunks N jobs).map id :=
      List.map_congr_left (fun c hc => by
        simp only [Function.comp_apply, id]
        exact hresp c hc)
    rw [hcongr, List.map_id]
    exact rawChunks_flatten N hN jobs

theorem query_batching_spec_witness :
    (query 4 ["a", "b", "c", "d", "e"] respondFive).2 = ["a", "b", "c", "d", "e"] ∧
    (queryRequests 4 ["a", "b", "c", "d", "e"]).length = (5 + 4 - 1) / 4 :=
  ⟨(query_batching_spec 4 ["a", "b", "c", "d", "e"] respondFive (by decide) (by decide)
      (by decide)).2.2.1,
   (query_batching_spec 4 ["a", "b", "c", "d", "e"] respondFive (by decide) (by decide)
      (by decide)).2.1⟩

/-! ### list query construction (claim C9) -/

/-- Claim C9 counterexample: with two states the generated query string joins
them with the three-character sequence "%2B" — the URL encoding of a plus
sign — so it differs from the claimed "state=s1+s2" form and contains no
literal plus character at all. -/
theorem list_state_plus_counterexample :
    listRequest "alice" ["success", "running"] none none none =
      "/list?user=alice&state=success%2Brunning" ∧
    listRequest "alice" ["success", "running"] none none none ≠
      "/list?user=alice&state=success+running" ∧
    ('+' ∉ (listRequest "alice" ["success", "running"] none none none).data) :=
  ⟨rfl, by decide, by decide⟩

/-- Claim C9 amended: when list is called with more than one state, the
states are joined with the literal percent-encoded sequence "%2B" (the URL
encoding of the plus character, which the server decodes to a plus),
producing a parameter of the form "state=s1%2Bs2". -/
theorem list_state_join_spec (user s1 s2 : String) (rest : List String) :
    listParams user (s1 :: s2 :: rest) none none none =
      ["user=" ++ user, "state=" ++ String.intercalate "%2B" (s1 :: s2 :: rest)] ∧
    listRequest "u" ["s1", "s2"] none none none = "/list?user=u&state=s1%2Bs2" :=
  ⟨rfl, rfl⟩

/-! ### the wait loop (claims C6, C7) -/

theorem waitPass_yields (remaining : List String) (results : List JobInfo) :
    (waitPass remaining results).2 =
      results.filter (fun job => job.status == "completed") := by
  induction results generalizing remaining with
  | nil => rfl
  | cons job rest ih =>
    by_cases h : job.status = "completed"
    · simp [waitPass, List.filter_cons, h, ih]
    · simp [waitPass, List.filter_cons, h, ih]

theorem waitPass_keeps (remaining : List String) (results : List JobInfo) (u : String)
    (hu : u ∈ remaining)
    (hne : ∀ job ∈ results, job.status = "completed" → job.uuid ≠ u) :
    u ∈ (waitPass remaining results).1 := by
  induction results generalizing remaining with
  | nil => exact hu
  | cons job rest ih =>
    by_cases h : job.status = "completed"
    · have hju : job.uuid ≠ u := hne job (by simp) h
      rw [waitPass, if_pos h]
      apply ih
      · exact (List.mem_erase_of_ne (Ne.symm hju)).mpr hu
      · intro job' hj' hs'
        exact hne job' (List.mem_cons_of_mem job hj') hs'
    · rw [waitPass, if_neg h]
      apply ih remaining hu
      intro job' hj' hs'
      exact hne job' (List.mem_cons_of_mem job hj') hs'

/-- Claim C6: in each pass of the wait loop the completed jobs are exactly
the ones yielded (in result order) and their identifiers are removed, while
a job not reported completed is neither yielded nor causes a removal; after
a pass with nothing remaining the loop terminates with no further sleep or
poll, otherwise it sleeps once and polls again; in particular waiting on one
job reported running then completed yields exactly the second poll's entry
in two polls, one sleep, and no third poll. -/
theorem wait_loop_spec (remaining : List String) (results : List JobInfo)
    (rest : List PollStep) (sleeps polls : Nat) (acc : List JobInfo) :
    ((waitPass remaining results).2 =
      results.filter (fun job => job.status == "completed")) ∧
    (∀ u, u ∈ remaining →
      (∀ job ∈ results, job.status = "completed" → job.uuid ≠ u) →
      u ∈ (waitPass remaining results).1) ∧
    ((waitPass remaining results).1 = [] →
      waitRun remaining (PollStep.ok results :: rest) sleeps polls acc =
        some (acc ++ (waitPass remaining results).2, [], sleeps, polls + 1)) ∧
    ((waitPass remaining results).1 ≠ [] →
      waitRun remaining (PollStep.ok results :: rest) sleeps polls acc =
        waitRun (waitPass remaining results).1 rest (sleeps + 1) (polls + 1)
          (acc ++ (waitPass remaining results).2)) ∧
    (waitRun ["x"]
        [PollStep.ok [{ uuid := "x", status := "running" }],
         PollStep.ok [{ uuid := "x", status := "completed" }],
         PollStep.ok [{ uuid := "x", status := "completed" }]] 0 0 [] =
      some ([{ uuid := "x", status := "completed" }], [], 1, 2)) := by
  refine ⟨waitPass_yields remaining results,
    fun u hu hne => waitPass_keeps remaining results u hu hne, ?_, ?_, by decide⟩
  · intro h
    rw [waitRun]
    simp [pollOutcome, h]
  · intro h
    rw [waitRun]
    have : 0 < (waitPass remaining results).1.length := List.length_pos.mpr h
    simp [pollOutcome, this]

theorem wait_loop_spec_witness :
    "y" ∈ (waitPass ["x", "y"] [{ uuid := "x", status := "completed" }]).1 :=
  (wait_loop_spec ["x", "y"] [{ uuid := "x", status := "completed" }] [] 0 0 []).2.1 "y"
    (by decide) (by decide)

/-- Claim C7: a JobClientError raised by query inside a wait polling pass is
swallowed: the pass yields nothing, leaves the remaining identifiers
untouched, and the loop proceeds to sleep and poll again on the next tick
rather than terminating. -/
theorem wait_query_error_spec (remaining : List String) (h : remaining ≠ [])
    (rest : List PollStep) (sleeps polls : Nat) (acc : List JobInfo) :
    waitRun remaining (PollStep.err :: rest) sleeps polls acc =
      waitRun remaining rest (sleeps + 1) (polls + 1) acc := by
  rw [waitRun]
  have : 0 < remaining.length := List.length_pos.mpr h
  simp [pollOutcome, this]

theorem wait_query_error_spec_witness :
    waitRun ["x"] [PollStep.err] 0 0 [] = waitRun ["x"] [] 1 1 [] :=
  wait_query_error_spec ["x"] (by simp) [] 0 0 []

end CookJobClient
